import Mathlib

/-!
Letter histograms computed by forked workers (parallel.c).

A shallow embedding of `src/parallel.c`.

* `Histogram` is the function of the same name (lines 94-119).
* `main`/`exec` give `main` (lines 122-219) one statement at a time; the same code is
  run by the controller and, after `fork` returns 0, by a worker.
* `sigchld` is the handler (lines 28-91) for one child returned by `waitpid`, that is one
  pass through its loop; the re-registration of line 87 is the event `Ev.rearm`.
* `step`/`run` interleave the controller's statements with worker terminations and with
  runs of the handler, which the kernel may deliver between any two statements.

Conventions. A byte is a `Nat`; `int` values are `Int`, wrapped to 32 bits where the code
does arithmetic on them (`wrap32`). Results of system calls are inputs (`Ret`, and the
arguments of `Ev.reap`). The program never calls `setlocale`, so `isalpha` and `tolower`
are those of the "C" locale.
-/

namespace Parallel

/-! ## Histogram -/

/-- Value of an `int` after arithmetic whose exact result is `v` (two's complement, 32 bits). -/
def wrap32 (v : Int) : Int := (v + 2147483648) % 4294967296 - 2147483648

/-- The function `isalpha` of libc in the "C" locale: `A`-`Z` and `a`-`z`. -/
def isalpha (c : Nat) : Bool := (65 ≤ c && c ≤ 90) || (97 ≤ c && c ≤ 122)

/-- The function `tolower` of libc in the "C" locale. -/
def tolower (c : Nat) : Nat := if 65 ≤ c ∧ c ≤ 90 then c + 32 else c

/-- Ways in which `Histogram` fails to deliver an array: `malloc` returned `NULL`, or the
loop read `Data[i]` past the end of the buffer (undefined behaviour). -/
inductive Fault where
  | allocFailed
  | outOfBounds
  deriving DecidableEq

/-- Body of the counting loop, lines 109-114, for the byte `c`. -/
def histStep (histogram : List Int) (c : Nat) : List Int :=
  if isalpha c then
    let c := tolower c
    histogram.set (c - 97) (wrap32 (histogram.getD (c - 97) 0 + 1))
  else histogram

/-- The loop `for (int i = 0; i < Size; i++)` of lines 108-115 with `n = Size - i`
iterations left. -/
def histLoop (Data : List Nat) : Nat → Nat → List Int → Except Fault (List Int)
  | 0, _, histogram => .ok histogram
  | n + 1, i, histogram =>
    match Data[i]? with
    | none => .error .outOfBounds
    | some c => histLoop Data n (i + 1) (histStep histogram c)

/-- The function `Histogram`, lines 94-119. `alloc` tells whether `malloc` succeeded; the
26 entries are zeroed (lines 104-106) before the counting loop runs. -/
def Histogram (alloc : Bool) (Data : List Nat) (Size : Int) : Except Fault (List Int) :=
  if alloc then histLoop Data Size.toNat 0 (List.replicate 26 0)
  else .error .allocFailed

/-! ## Processes running `main` -/

def MAX_FILES : Nat := 100

def EXIT_FAILURE : Nat := 1

/-- What `waitpid` reports about a terminated child: `WIFEXITED` with its exit code, or
`WIFSIGNALED` with the signal. -/
inductive WaitStatus where
  | exited (code : Nat)
  | signaled (sig : Nat)
  deriving DecidableEq

/-- Observable actions of a process, logged in the order they happen. -/
inductive Act where
  | pipe (slot : Nat)                      -- pipe(pipes[slot]) succeeded
  | fork (pid : Nat)                       -- fork() returned pid to the parent
  | closeRead (slot : Nat)                 -- close(pipes[slot][0])
  | closeWrite (slot : Nat)                -- close(pipes[slot][1])
  | kill (pid : Nat)                       -- kill(pid, SIGINT)
  | readPipe (slot : Nat) (got : Bool)     -- read(pipes[slot][0], ..), got: bytesRead > 0
  | artifact (pid : Nat) (text : List Char) -- file<pid>.hist opened and written
  | notFound (pid : Nat)                   -- "Error: Pipe for child .. not found."
  | abnormal (pid : Nat)                   -- "Child .. terminated abnormally."
  | openFile (name : Option String) (ok : Bool) -- open(argv[i], O_RDONLY)
  | readFile (size : Nat)                  -- read(fileDescriptor, fileData, fileSize)
  | writePipe (slot : Nat) (payload : List Int) -- write(pipes[slot][1], calcHisto, ..)
  | sleep (secs : Nat)
  deriving DecidableEq

/-- Control locations of `main`, with the source lines each one covers. -/
inductive Loc where
  | start         -- 124-134
  | register      -- 136-140
  | loopTest      -- 142, i < argc
  | mkPipe        -- 145-148
  | doFork        -- 150-154
  | childClose    -- 155-156
  | childBranch   -- 158
  | workerOpen    -- 159-165
  | workerAlloc   -- 167-173
  | workerRead    -- 175-178
  | workerHist    -- 180-184
  | workerSleep   -- 187-188
  | workerExit    -- 190-192
  | markerSleep   -- 194-195
  | parentClose   -- 198-199
  | parentRecord  -- 200
  | parentCount   -- 201
  | parentSignal  -- 203-206
  | loopNext      -- 142, i++
  | waiting       -- 210-213
  | finish        -- 215-217
  deriving DecidableEq

/-- State of one process running `main`: where it is, the locals `i`, `pid`, `fileData`,
the globals `pids`, `numChildren`, `numTerminated`, whether `sigchld` is installed, the
actions performed so far, and how the process terminated, if it has. -/
structure Proc where
  pc : Loc
  i : Nat
  pid : Nat
  fileData : List Nat
  pids : List Nat
  numChildren : Nat
  numTerminated : Nat
  handler : Bool
  log : List Act
  ended : Option WaitStatus
  deriving DecidableEq

/-- A process at the entry of `main`; the globals are zero-initialised. -/
def Proc.init : Proc :=
  { pc := .start, i := 0, pid := 0, fileData := [], pids := List.replicate MAX_FILES 0,
    numChildren := 0, numTerminated := 0, handler := false, log := [], ended := none }

/-- Answer of the environment to the call made by the statement being executed:
`ok`/`fail` for `pipe`, `open`, `malloc`; `pid` for `fork`; `bytes` for the file content
that `read` delivers; for `sleep(10)` of the marker branch `unit` when the time elapses
and `killed` when the signal ends the process. -/
inductive Ret where
  | unit
  | ok
  | fail
  | pid (p : Nat)
  | bytes (b : List Nat)
  | killed
  deriving DecidableEq

def Proc.act (p : Proc) (a : Act) : Proc := { p with log := p.log ++ [a] }

def Proc.goto (p : Proc) (l : Loc) : Proc := { p with pc := l }

def Proc.exit (p : Proc) (code : Nat) : Proc := { p with ended := some (.exited code) }

/-- Lines 181-182: `calcHisto = Histogram(fileData, fileSize)` with `fileSize` converted
to `int`, then `write` of the 26 counts; when no array comes back nothing is written. -/
def sendHistogram (p : Proc) (alloc : Bool) : Proc :=
  match Histogram alloc p.fileData (wrap32 p.fileData.length) with
  | .ok calcHisto => p.act (.writePipe (p.i - 1) calcHisto)
  | .error _ => p

/-- The function `main`, lines 122-219, one statement at a time: the statement at the
location `p.pc`, run in the state `p`, with `r` the answer to the call it makes. -/
def main (argv : List String) (p : Proc) (r : Ret) : Option Proc :=
  match p.pc with
  | .start =>
    if argv.length = 1 then some (p.exit EXIT_FAILURE)
    else if argv.length > MAX_FILES + 1 then some (p.exit EXIT_FAILURE)
    else some (p.goto .register)
  | .register => some { p with handler := true, i := 1, pc := .loopTest }
  | .loopTest => if p.i < argv.length then some (p.goto .mkPipe) else some (p.goto .waiting)
  | .mkPipe =>
    match r with
    | .ok => some ((p.act (.pipe (p.i - 1))).goto .doFork)
    | .fail => some (p.exit EXIT_FAILURE)
    | _ => none
  | .doFork =>
    match r with
    | .fail => some (p.exit EXIT_FAILURE)
    | .pid 0 => some { p with pid := 0, pc := .childClose }
    | .pid (q + 1) =>
      some { p with pid := q + 1, log := p.log ++ [.fork (q + 1)], pc := .parentClose }
    | _ => none
  | .childClose => some ((p.act (.closeRead (p.i - 1))).goto .childBranch)
  | .childBranch =>
    if argv[p.i]? ≠ some "SIG" then some (p.goto .workerOpen) else some (p.goto .markerSleep)
  | .workerOpen =>
    match r with
    | .ok => some ((p.act (.openFile argv[p.i]? true)).goto .workerAlloc)
    | .fail => some (((p.act (.openFile argv[p.i]? false)).act (.closeWrite (p.i - 1))).exit 1)
    | _ => none
  | .workerAlloc =>
    match r with
    | .ok => some (p.goto .workerRead)
    | .fail => some ((p.act (.closeWrite (p.i - 1))).exit 1)
    | _ => none
  | .workerRead =>
    match r with
    | .bytes b =>
      some { p with fileData := b, log := p.log ++ [.readFile b.length], pc := .workerHist }
    | _ => none
  | .workerHist =>
    match r with
    | .ok => some ((sendHistogram p true).goto .workerSleep)
    | .fail => some ((sendHistogram p false).goto .workerSleep)
    | _ => none
  | .workerSleep => some ((p.act (.sleep (10 + 3 * (p.i - 1)))).goto .workerExit)
  | .workerExit => some ((p.act (.closeWrite (p.i - 1))).exit 0)
  | .markerSleep =>
    match r with
    | .unit => some ((p.act (.sleep 10)).goto .loopNext)
    | .killed => some { p with ended := some (.signaled 2) }
    | _ => none
  | .parentClose => some ((p.act (.closeWrite (p.i - 1))).goto .parentRecord)
  | .parentRecord => some { p with pids := p.pids.set (p.i - 1) p.pid, pc := .parentCount }
  | .parentCount => some { p with numChildren := p.numChildren + 1, pc := .parentSignal }
  | .parentSignal =>
    if argv[p.i]? = some "SIG" then some ((p.act (.kill p.pid)).goto .loopNext)
    else some (p.goto .loopNext)
  | .loopNext => some { p with i := p.i + 1, pc := .loopTest }
  | .waiting =>
    if p.numTerminated < p.numChildren then some (p.act (.sleep 1)) else some (p.goto .finish)
  | .finish => some (p.exit 0)

/-- One statement of `main`, executed by a process that has not terminated. -/
def exec (argv : List String) (p : Proc) (r : Ret) : Option Proc :=
  if p.ended.isSome then none else main argv p r

/-- Run a process through a sequence of statements. -/
def execs (argv : List String) : Proc → List Ret → Option Proc
  | p, [] => some p
  | p, r :: rs =>
    match exec argv p r with
    | some q => execs argv q rs
    | none => none

/-! ## The handler `sigchld` -/

/-- Rendering of the conversion `%d`. -/
def fmtD (v : Int) : List Char :=
  if v < 0 then Char.ofNat 45 :: Nat.toDigits 10 v.natAbs else Nat.toDigits 10 v.natAbs

/-- The buffer `line` after `sprintf(line, "%c=%d\n", letter, count)`, line 71. -/
def sprintfLine (letter : Nat) (count : Int) : List Char :=
  [Char.ofNat letter, Char.ofNat 61] ++ fmtD count ++ [Char.ofNat 10]

/-- The lines written by the loop of lines 69-73 from `letter` on, `n` iterations left. -/
def writeLines (characterCounts : List Int) : Nat → Nat → List (List Char)
  | 0, _ => []
  | n + 1, letter =>
    sprintfLine letter (characterCounts.getD (letter - 97) 0) ::
      writeLines characterCounts n (letter + 1)

/-- Lines of the artifact, one per `write` call, for `letter` from `a` to `z`. -/
def artifactLines (characterCounts : List Int) : List (List Char) :=
  writeLines characterCounts 26 97

/-- Text written to `file<pid>.hist`. -/
def renderArtifact (characterCounts : List Int) : List Char :=
  (artifactLines characterCounts).flatten

/-- The search loop of lines 44-52: the first index below `MAX_FILES` whose entry of
`pids` equals `child_pid`; `none` stands for `curPipe == -1`. -/
def findPipe (pids : List Nat) (child_pid : Nat) : Option Nat :=
  (List.range MAX_FILES).find? (fun i => child_pid == pids.getD i 0)

/-- The handler `sigchld`, one pass through its loop (lines 38-84), for the child
`child_pid` that `waitpid` returned with `child_status`. `counts` is what `read`
delivered into `characterCounts` (`none` when `bytesRead <= 0`), `openOk` whether the
artifact file could be opened. -/
def sigchld (p : Proc) (child_pid : Nat) (child_status : WaitStatus)
    (counts : Option (List Int)) (openOk : Bool) : Proc :=
  let p := { p with numTerminated := p.numTerminated + 1 }
  match child_status with
  | .exited _ =>
    match findPipe p.pids child_pid with
    | some curPipe =>
      match counts with
      | some characterCounts =>
        let p := p.act (.readPipe curPipe true)
        if openOk then
          (p.act (.artifact child_pid (renderArtifact characterCounts))).act (.closeRead curPipe)
        else p.exit EXIT_FAILURE
      | none => (p.act (.readPipe curPipe false)).act (.closeRead curPipe)
    | none => p.act (.notFound child_pid)
  | .signaled _ => p.act (.abnormal child_pid)

/-! ## The controller and its children -/

/-- A child of the controller as the kernel sees it: its pid, the index of the pipe
created for it, and its status: `none` while it runs, `some _` once it has terminated and
waits to be collected by `waitpid`. -/
structure Kid where
  pid : Nat
  slot : Nat
  status : Option WaitStatus
  deriving DecidableEq

/-- The controller process together with its children that have not been waited for. -/
structure Sys where
  ctl : Proc
  kids : List Kid
  deriving DecidableEq

/-- The controller at the entry of `main`; it starts without children. -/
def Sys.init : Sys := { ctl := Proc.init, kids := [] }

/-- Events of the system: the controller executes its next statement (`run`), a child
terminates (`die`), the handler's loop collects a terminated child (`reap`), the handler
re-registers itself at line 87 (`rearm`). -/
inductive Ev where
  | run (r : Ret)
  | die (pid : Nat) (s : WaitStatus)
  | reap (pid : Nat) (counts : Option (List Int)) (openOk : Bool)
  | rearm (ok : Bool)
  deriving DecidableEq

/-- One event. `fork` hands the parent a pid that no child still known to the kernel
has; `waitpid` only returns children that have terminated and were not collected before;
the handler runs only once installed and while the controller is alive. -/
def step (argv : List String) (s : Sys) : Ev → Option Sys
  | .run r =>
    match exec argv s.ctl r with
    | none => none
    | some q =>
      if s.ctl.pc = .doFork then
        match r with
        | .pid 0 => none
        | .pid p =>
          if s.kids.any (fun k => k.pid == p) then none
          else some { ctl := q, kids := s.kids ++ [{ pid := p, slot := s.ctl.i - 1, status := none }] }
        | _ => some { s with ctl := q }
      else some { s with ctl := q }
  | .die pid st =>
    if s.kids.any (fun k => k.pid == pid && k.status.isNone) then
      some { s with
        kids := s.kids.map (fun k =>
          if k.pid = pid ∧ k.status = none then { k with status := some st } else k) }
    else none
  | .reap pid counts openOk =>
    if s.ctl.ended.isSome || !s.ctl.handler then none else
    match s.kids.find? (fun k => k.pid == pid) with
    | some k =>
      match k.status with
      | some st => some { ctl := sigchld s.ctl pid st counts openOk, kids := s.kids.erase k }
      | none => none
    | none => none
  | .rearm ok =>
    if s.ctl.ended.isSome || !s.ctl.handler then none
    else if ok then some s else some { s with ctl := s.ctl.exit EXIT_FAILURE }

/-- Run the system through a sequence of events; the states `run argv Sys.init evs` are the
reachable states of the controller started with the argument vector `argv`. -/
def run (argv : List String) : Sys → List Ev → Option Sys
  | s, [] => some s
  | s, e :: es =>
    match step argv s e with
    | some t => run argv t es
    | none => none

/-! ## Auxiliary notions used in the statements -/

/-- The byte `c` is the lowercase or the uppercase form of letter number `k`. -/
def isLetterK (k : Nat) (c : Nat) : Bool := c == 97 + k || c == 65 + k

/-- The eleven bytes of the text "Hello World". -/
def helloWorld : List Nat := "Hello World".toList.map Char.toNat

/-- Locations on the parent's side of `fork`. -/
def Loc.isParent : Loc → Bool
  | .childClose | .childBranch | .workerOpen | .workerAlloc | .workerRead | .workerHist
  | .workerSleep | .workerExit | .markerSleep => false
  | _ => true

/-- Locations between the return of `fork` and the increment of `numChildren`. -/
def Loc.inWindow : Loc → Bool
  | .parentClose | .parentRecord | .parentCount => true
  | _ => false

/-- Locations between the return of `fork` and the assignment `pids[i - 1] = pid`. -/
def Loc.beforeRecord : Loc → Bool
  | .parentClose | .parentRecord => true
  | _ => false

/-- Locations after the assignment `pids[i - 1] = pid`, up to the next `i++`. -/
def Loc.afterRecord : Loc → Bool
  | .parentCount | .parentSignal | .loopNext => true
  | _ => false

/-- The answer to `fork` is the pid of a new child. -/
def Ret.isChildPid : Ret → Bool
  | .pid (_ + 1) => true
  | _ => false

/-- Actions a reap added to the log. -/
def newActs (p q : Proc) : List Act := q.log.drop p.log.length

/-- Locations inside the body of the spawning loop, where `1 <= i < argc`. -/
def Loc.inBody : Loc → Bool
  | .mkPipe | .doFork | .parentClose | .parentRecord | .parentCount | .parentSignal
  | .loopNext => true
  | _ => false

/-- State of the record of child `k` in the controller `p`: the child belongs to an earlier
iteration and `pids` holds its pid at its index; or it was forked in the current iteration
and line 200 has not run yet; or it was forked in the current iteration and is recorded. -/
def kidOk (p : Proc) (k : Kid) : Prop :=
  (k.slot + 1 < p.i ∧ p.pids[k.slot]? = some k.pid) ∨
  (k.slot + 1 = p.i ∧ p.pc.beforeRecord = true ∧ k.pid = p.pid) ∨
  (k.slot + 1 = p.i ∧ p.pc.afterRecord = true ∧ p.pids[k.slot]? = some k.pid)

/-- Counting invariant: the children collected so far and those still to be collected are
together `numChildren`, plus one while the controller is between `fork` and line 201. -/
structure CountInv (s : Sys) : Prop where
  parent : s.ctl.pc.isParent = true
  count : s.ctl.numTerminated + s.kids.length =
    s.ctl.numChildren + (if s.ctl.pc.inWindow then 1 else 0)
  fin : s.ctl.pc = .finish → s.ctl.numTerminated = s.ctl.numChildren
  done : s.ctl.ended = some (.exited 0) → s.ctl.pc = .finish

/-- Record invariant: every child not yet collected is in one of the states of `kidOk`. -/
structure RecInv (argv : List String) (s : Sys) : Prop where
  parent : s.ctl.pc.isParent = true
  len : s.ctl.pids.length = MAX_FILES
  argc : s.ctl.pc ≠ .start → argv.length ≤ MAX_FILES + 1
  early : s.ctl.pc = .start ∨ s.ctl.pc = .register → s.kids = []
  idx : s.ctl.pc.inBody = true → 1 ≤ s.ctl.i ∧ s.ctl.i < argv.length
  idx0 : s.ctl.pc = .loopTest → 1 ≤ s.ctl.i
  kids : ∀ k ∈ s.kids, kidOk s.ctl k

/-- First index of `pids` that the spawning loop has not written yet: nothing before the
loop, `i` once line 200 has run in the current iteration, `i - 1` otherwise. -/
def Proc.zeroFrom (p : Proc) : Nat :=
  match p.pc with
  | .start | .register => 0
  | .parentCount | .parentSignal | .loopNext => p.i
  | _ => p.i - 1

/-- Invariant on the unwritten part of `pids`: it still holds the initial zeros, and no
child has pid 0. -/
structure ZeroInv (s : Sys) : Prop where
  kidpid : ∀ k ∈ s.kids, k.pid ≠ 0
  zero : ∀ j, s.ctl.zeroFrom ≤ j → s.ctl.pids.getD j 0 = 0

/-! ## Lemmas on `Histogram` -/

theorem wrap32_id (v : Int) (h0 : -2147483648 ≤ v) (h1 : v ≤ 2147483647) : wrap32 v = v := by
  unfold wrap32; omega

theorem getD_set_int (l : List Int) (j k : Nat) (v : Int) (hj : j < l.length) :
    (l.set j v).getD k 0 = if j = k then v else l.getD k 0 := by
  simp only [List.getD_eq_getElem?_getD, List.getElem?_set]
  by_cases h : j = k
  · simp [h, hj]
    subst h; simp [hj]
  · simp [h]

theorem sum_set_int (l : List Int) : ∀ (j : Nat) (v : Int), j < l.length →
    (l.set j v).sum = l.sum - l.getD j 0 + v := by
  induction l with
  | nil => intro j v h; simp at h
  | cons x xs ih =>
    intro j v h
    cases j with
    | zero => simp; ring
    | succ j =>
      simp only [List.set_cons_succ, List.sum_cons, List.getD_cons_succ]
      rw [ih j v (by simpa using h)]
      ring

theorem histLoop_eq (Data : List Nat) : ∀ (n i : Nat) (h : List Int), i + n ≤ Data.length →
    histLoop Data n i h = .ok (((Data.drop i).take n).foldl histStep h) := by
  intro n
  induction n with
  | zero => intro i h _; simp [histLoop]
  | succ n ih =>
    intro i h hle
    have hi : i < Data.length := by omega
    have hd : Data.drop i = Data[i] :: Data.drop (i + 1) :=
      List.drop_eq_getElem_cons hi
    simp only [histLoop, List.getElem?_eq_getElem hi]
    rw [ih (i + 1) _ (by omega), hd, List.take_succ_cons, List.foldl_cons]

theorem histStep_not_alpha (h : List Int) (c : Nat) (hc : isalpha c = false) :
    histStep h c = h := by
  simp [histStep, hc]

theorem histStep_spec (h : List Int) (c : Nat) (hlen : h.length = 26)
    (hb : ∀ k, k < 26 → 0 ≤ h.getD k 0 ∧ h.getD k 0 + 1 ≤ 2147483647) :
    (histStep h c).length = 26 ∧
    (∀ k, k < 26 → (histStep h c).getD k 0 = h.getD k 0 + (if isLetterK k c then 1 else 0)) ∧
    (histStep h c).sum = h.sum + (if isalpha c then 1 else 0) := by
  unfold histStep
  by_cases hc : isalpha c = true
  · have hidx : tolower c - 97 < 26 := by
      simp [isalpha] at hc
      unfold tolower; split <;> omega
    have hw := wrap32_id (h.getD (tolower c - 97) 0 + 1)
      (by have := (hb _ hidx).1; omega) (hb _ hidx).2
    simp only [hc, if_true, List.length_set, hw]
    refine ⟨hlen, ?_, ?_⟩
    · intro k hk
      rw [getD_set_int _ _ _ _ (by omega)]
      have hiff : (tolower c - 97 = k) ↔ isLetterK k c = true := by
        simp [isalpha] at hc
        simp only [isLetterK, Bool.or_eq_true, beq_iff_eq]
        unfold tolower; split <;> omega
      by_cases hk2 : tolower c - 97 = k
      · simp [hk2, hiff.mp hk2]
      · have : isLetterK k c = false := by
          cases hh : isLetterK k c
          · rfl
          · exact absurd (hiff.mpr hh) hk2
        simp [hk2, this]
    · rw [sum_set_int _ _ _ (by omega)]; ring
  · have hc2 : isalpha c = false := by simpa using hc
    simp only [hc2, Bool.false_eq_true, if_false]
    refine ⟨hlen, ?_, by simp⟩
    intro k hk
    have : isLetterK k c = false := by
      simp [isalpha] at hc2
      cases hh : isLetterK k c
      · rfl
      · simp only [isLetterK, Bool.or_eq_true, beq_iff_eq] at hh
        omega
    simp [this]

theorem foldl_histStep (l : List Nat) : ∀ (h : List Int), h.length = 26 →
    (∀ k, k < 26 → 0 ≤ h.getD k 0 ∧ h.getD k 0 + l.length ≤ 2147483647) →
    (l.foldl histStep h).length = 26 ∧
    (∀ k, k < 26 → (l.foldl histStep h).getD k 0 = h.getD k 0 + (l.countP (isLetterK k) : Nat)) ∧
    (l.foldl histStep h).sum = h.sum + (l.countP isalpha : Nat) := by
  induction l with
  | nil => intro h hlen _; simp [hlen]
  | cons c cs ih =>
    intro h hlen hb
    have hb1 : ∀ k, k < 26 → 0 ≤ h.getD k 0 ∧ h.getD k 0 + 1 ≤ 2147483647 := by
      intro k hk
      have := hb k hk
      simp only [List.length_cons] at this
      omega
    obtain ⟨s1, s2, s3⟩ := histStep_spec h c hlen hb1
    have hb2 : ∀ k, k < 26 → 0 ≤ (histStep h c).getD k 0 ∧
        (histStep h c).getD k 0 + cs.length ≤ 2147483647 := by
      intro k hk
      have := hb k hk
      simp only [List.length_cons] at this
      rw [s2 k hk]
      split <;> omega
    obtain ⟨r1, r2, r3⟩ := ih (histStep h c) s1 hb2
    simp only [List.foldl_cons]
    refine ⟨r1, ?_, ?_⟩
    · intro k hk
      rw [r2 k hk, s2 k hk, List.countP_cons]
      split
      · simp; ring
      · simp
    · rw [r3, s3, List.countP_cons]
      split
      · simp; ring
      · simp

theorem countP_range_take (Data : List Nat) (p : Nat → Bool) (n : Nat) :
    (List.range n).countP (fun i => (Data[i]?).any p) = (Data.take n).countP p := by
  induction n with
  | zero => simp
  | succ n ih =>
    rw [List.range_succ, List.countP_append, ih, List.take_succ, List.countP_append]
    cases h : Data[n]? <;> simp [h, List.countP_cons]

theorem Histogram_eq (Data : List Nat) (Size : Int) (hlen : Size ≤ Data.length) :
    Histogram true Data Size = .ok ((Data.take Size.toNat).foldl histStep (List.replicate 26 0)) := by
  unfold Histogram
  rw [if_pos rfl, histLoop_eq Data Size.toNat 0 _ (by omega)]
  simp

theorem getD_replicate_zero (k : Nat) : (List.replicate 26 (0 : Int)).getD k 0 = 0 := by
  rw [List.getD_eq_getElem?_getD, List.getElem?_replicate]
  split <;> rfl

theorem Histogram_take_spec (Data : List Nat) (Size : Int) (hlen : Size ≤ Data.length)
    (hint : Size ≤ 2147483647) :
    ∃ h, Histogram true Data Size = .ok h ∧ h.length = 26 ∧
      (∀ k, k < 26 → h.getD k 0 = ((Data.take Size.toNat).countP (isLetterK k) : Nat)) ∧
      h.sum = ((Data.take Size.toNat).countP isalpha : Nat) := by
  refine ⟨_, Histogram_eq Data Size hlen, ?_⟩
  have hl : ((Data.take Size.toNat).length : Int) ≤ 2147483647 := by
    have : (Data.take Size.toNat).length ≤ Size.toNat := by simp
    omega
  obtain ⟨r1, r2, r3⟩ := foldl_histStep (Data.take Size.toNat) (List.replicate 26 0) (by simp)
    (by intro k _; rw [getD_replicate_zero]; omega)
  refine ⟨r1, ?_, ?_⟩
  · intro k hk; rw [r2 k hk, getD_replicate_zero]; simp
  · rw [r3]; simp

theorem getElem?_of_getD (h : List Int) (k : Nat) (hk : k < h.length) :
    h[k]? = some (h.getD k 0) := by
  simp [List.getD_eq_getElem?_getD, List.getElem?_eq_getElem hk]

/-! ## Lemmas on the artifact -/

theorem fmtD_natCast (n : Nat) : fmtD (n : Int) = Nat.toDigits 10 n := by
  have : ¬ ((n : Int) < 0) := by omega
  simp [fmtD, this]

theorem writeLines_length (cc : List Int) : ∀ (n letter : Nat),
    (writeLines cc n letter).length = n := by
  intro n
  induction n with
  | zero => intro _; rfl
  | succ n ih => intro letter; simp [writeLines, ih]

theorem writeLines_getElem? (cc : List Int) : ∀ (n letter k : Nat), k < n →
    (writeLines cc n letter)[k]? =
      some (sprintfLine (letter + k) (cc.getD (letter + k - 97) 0)) := by
  intro n
  induction n with
  | zero => intro _ k hk; omega
  | succ n ih =>
    intro letter k hk
    cases k with
    | zero => simp [writeLines]
    | succ k =>
      simp only [writeLines, List.getElem?_cons_succ]
      rw [ih (letter + 1) k (by omega)]
      have : letter + 1 + k = letter + (k + 1) := by omega
      rw [this]

/-! ## Invariants of the controller -/

theorem exec_count (argv : List String) (p q : Proc) (r : Ret) (h : exec argv p r = some q)
    (hp : p.pc.isParent = true) :
    q.numTerminated = p.numTerminated ∧
    (q.pc.isParent = true ∨ (p.pc = .doFork ∧ r = .pid 0)) ∧
    (q.numChildren + (if q.pc.inWindow then 1 else 0) =
      p.numChildren + (if p.pc.inWindow then 1 else 0) +
        (if p.pc = .doFork ∧ r.isChildPid then 1 else 0)) ∧
    (q.pc = .finish → p.pc = .finish ∨ (p.pc = .waiting ∧ ¬ p.numTerminated < p.numChildren)) ∧
    (q.ended = some (.exited 0) → p.pc = .finish) ∧
    (p.pc = .finish → q.pc = .finish) := by
  obtain ⟨pc, i, pid, fd, pids, nc, nt, hd, log, ended⟩ := p
  cases ended with
  | some e => simp [exec] at h
  | none =>
    unfold exec at h
    simp only [Option.isSome_none, Bool.false_eq_true, if_false] at h
    unfold main at h
    cases pc <;> simp only [Loc.isParent, Bool.false_eq_true] at hp <;>
      simp only [Proc.exit, Proc.goto, Proc.act] at h <;>
      (try split at h) <;> (try split at h) <;>
      simp only [Option.some.injEq, reduceCtorEq] at h <;>
      subst h <;> simp [Loc.isParent, Loc.inWindow, EXIT_FAILURE, Ret.isChildPid]
    all_goals omega

theorem sigchld_fields (p : Proc) (pid : Nat) (st : WaitStatus) (counts : Option (List Int))
    (openOk : Bool) :
    (sigchld p pid st counts openOk).pc = p.pc ∧
    (sigchld p pid st counts openOk).i = p.i ∧
    (sigchld p pid st counts openOk).pid = p.pid ∧
    (sigchld p pid st counts openOk).pids = p.pids ∧
    (sigchld p pid st counts openOk).numChildren = p.numChildren ∧
    (sigchld p pid st counts openOk).numTerminated = p.numTerminated + 1 ∧
    ((sigchld p pid st counts openOk).ended = p.ended ∨
      (sigchld p pid st counts openOk).ended = some (.exited EXIT_FAILURE)) := by
  cases st <;> simp only [sigchld] <;> repeat' split
  all_goals simp [Proc.act, Proc.exit]

theorem step_CountInv (argv : List String) (s t : Sys) (e : Ev) (hJ : CountInv s)
    (h : step argv s e = some t) : CountInv t := by
  obtain ⟨hpar, hcount, hfin, hdone⟩ := hJ
  cases e with
  | run r =>
    simp only [step] at h
    cases hq : exec argv s.ctl r with
    | none => simp [hq] at h
    | some q =>
      obtain ⟨f1, f2, f3, f4, f5, f6⟩ := exec_count argv s.ctl q r hq hpar
      simp only [hq] at h
      have hfinq : ∀ n : Nat, s.ctl.numTerminated + s.kids.length = s.ctl.numChildren + n →
          q.numChildren + (if q.pc.inWindow then 1 else 0) = s.ctl.numChildren + n →
          q.pc = .finish → q.numTerminated = q.numChildren := by
        intro n hn1 hn2 hqf
        rw [hqf] at hn2
        simp only [Loc.inWindow, Bool.false_eq_true, if_false] at hn2
        rcases f4 hqf with hp | ⟨hp, hlt⟩
        · have := hfin hp
          rw [hp] at hcount
          simp only [Loc.inWindow, Bool.false_eq_true, if_false] at hcount
          omega
        · rw [hp] at hcount
          simp only [Loc.inWindow, Bool.false_eq_true, if_false] at hcount
          omega
      by_cases hpc : s.ctl.pc = .doFork
      · simp only [hpc, if_true] at h
        have hw : s.ctl.pc.inWindow = false := by rw [hpc]; rfl
        simp only [hw, Bool.false_eq_true, if_false] at hcount f3
        cases r with
        | pid n =>
          cases n with
          | zero => simp at h
          | succ n =>
            simp only at h
            split at h
            · simp at h
            · simp only [Option.some.injEq] at h
              subst h
              have hpar' : q.pc.isParent = true := by
                rcases f2 with h1 | ⟨_, h1⟩
                · exact h1
                · simp at h1
              simp only [hpc, Ret.isChildPid, and_self, if_true] at f3
              refine ⟨hpar', ?_, ?_, ?_⟩
              · simp only [List.length_append, List.length_singleton]
                omega
              · intro hqf
                have := f4 hqf
                simp [hpc] at this
              · intro he; exact f6 (f5 he)
        | unit | ok | fail | bytes _ | killed =>
          simp only [Option.some.injEq] at h
          subst h
          have hpar' : q.pc.isParent = true := by
            rcases f2 with h1 | ⟨_, h1⟩
            · exact h1
            · simp at h1
          simp only [hpc, Ret.isChildPid, and_false, Bool.false_eq_true, if_false] at f3
          refine ⟨hpar', ?_, ?_, ?_⟩
          · simp only []; omega
          · intro hqf
            have := f4 hqf
            simp [hpc] at this
          · intro he; exact f6 (f5 he)
      · simp only [hpc, if_false, Option.some.injEq] at h
        subst h
        have hpar' : q.pc.isParent = true := by
          rcases f2 with h1 | ⟨h1, _⟩
          · exact h1
          · exact absurd h1 hpc
        simp only [hpc, false_and, if_false] at f3
        refine ⟨hpar', ?_, ?_, ?_⟩
        · simp only []; omega
        · exact hfinq _ hcount (by simpa using f3)
        · intro he; exact f6 (f5 he)
  | die pid st =>
    simp only [step] at h
    split at h
    · simp only [Option.some.injEq] at h
      subst h
      exact ⟨hpar, by simpa using hcount, hfin, hdone⟩
    · simp at h
  | reap pid counts openOk =>
    simp only [step] at h
    split at h
    · simp at h
    · rename_i hguard
      split at h
      · rename_i k hk
        split at h
        · rename_i st hst
          simp only [Option.some.injEq] at h
          subst h
          obtain ⟨g1, _, _, _, g5, g6, g7⟩ := sigchld_fields s.ctl pid st counts openOk
          have hmem : k ∈ s.kids := List.mem_of_find?_eq_some hk
          have hpos : 0 < s.kids.length := List.length_pos_of_mem hmem
          have hlen : (s.kids.erase k).length = s.kids.length - 1 :=
            List.length_erase_of_mem hmem
          have hnone : s.ctl.ended = none := by
            cases he : s.ctl.ended with
            | none => rfl
            | some _ => simp [he] at hguard
          refine ⟨by simpa [g1] using hpar, ?_, ?_, ?_⟩
          · simp only [g1, g5, g6, hlen]; omega
          · intro hf
            rw [g1] at hf
            have := hfin hf
            rw [hf] at hcount
            simp only [Loc.inWindow, Bool.false_eq_true, if_false] at hcount
            omega
          · intro he
            rcases g7 with g | g
            · rw [g, hnone] at he; simp at he
            · rw [g] at he; simp [EXIT_FAILURE] at he
        · simp at h
      · simp at h
  | rearm ok =>
    simp only [step] at h
    split at h
    · simp at h
    · rename_i hguard
      have hnone : s.ctl.ended = none := by
        cases he : s.ctl.ended with
        | none => rfl
        | some _ => simp [he] at hguard
      split at h
      · simp only [Option.some.injEq] at h
        subst h
        exact ⟨hpar, hcount, hfin, hdone⟩
      · simp only [Option.some.injEq] at h
        subst h
        exact ⟨hpar, hcount, hfin, by simp [Proc.exit, EXIT_FAILURE]⟩

theorem run_CountInv (argv : List String) : ∀ (evs : List Ev) (s t : Sys), CountInv s →
    run argv s evs = some t → CountInv t := by
  intro evs
  induction evs with
  | nil => intro s t hs h; simp only [run, Option.some.injEq] at h; rw [← h]; exact hs
  | cons e es ih =>
    intro s t hs h
    simp only [run] at h
    cases hst : step argv s e with
    | none => simp [hst] at h
    | some u =>
      simp only [hst] at h
      exact ih u t (step_CountInv argv s u e hs hst) h

theorem CountInv_init : CountInv Sys.init :=
  ⟨rfl, rfl, by simp [Sys.init, Proc.init], by simp [Sys.init, Proc.init]⟩

theorem exec_aux (argv : List String) (p q : Proc) (r : Ret) (h : exec argv p r = some q)
    (hp : p.pc.isParent = true) (hlen : p.pids.length = MAX_FILES)
    (hargc : p.pc ≠ .start → argv.length ≤ MAX_FILES + 1)
    (hidx : p.pc.inBody = true → 1 ≤ p.i ∧ p.i < argv.length)
    (hidx0 : p.pc = .loopTest → 1 ≤ p.i) :
    q.pids.length = MAX_FILES ∧
    (q.pc ≠ .start → argv.length ≤ MAX_FILES + 1) ∧
    (q.pc.inBody = true → 1 ≤ q.i ∧ q.i < argv.length) ∧
    (q.pc = .loopTest → 1 ≤ q.i) ∧
    (q.pc = .start ∨ q.pc = .register → p.pc = .start) ∧
    (p.pc = .doFork → r.isChildPid = true → q.pc = .parentClose ∧ q.i = p.i ∧ r = .pid q.pid) := by
  obtain ⟨pc, i, pid, fd, pids, nc, nt, hd, log, ended⟩ := p
  cases ended with
  | some e => simp [exec] at h
  | none =>
    unfold exec at h
    simp only [Option.isSome_none, Bool.false_eq_true, if_false] at h
    unfold main at h
    cases pc <;> simp only [Loc.isParent, Bool.false_eq_true] at hp <;>
      simp only [Proc.exit, Proc.goto, Proc.act] at h <;>
      (try split at h) <;> (try split at h) <;>
      simp only [Option.some.injEq, reduceCtorEq] at h <;>
      subst h <;>
      simp [Loc.inBody, Ret.isChildPid] at hlen hargc hidx hidx0 ⊢ <;>
      (try omega)

theorem exec_kidOk (argv : List String) (p q : Proc) (r : Ret) (k : Kid)
    (h : exec argv p r = some q)
    (hp : p.pc.isParent = true) (hnr : p.pc ≠ .register) (hlen : p.pids.length = MAX_FILES)
    (hargc : p.pc ≠ .start → argv.length ≤ MAX_FILES + 1)
    (hidx : p.pc.inBody = true → 1 ≤ p.i ∧ p.i < argv.length)
    (hk : kidOk p k) : kidOk q k := by
  obtain ⟨pc, i, pid, fd, pids, nc, nt, hd, log, ended⟩ := p
  cases ended with
  | some e => simp [exec] at h
  | none =>
    unfold exec at h
    simp only [Option.isSome_none, Bool.false_eq_true, if_false] at h
    unfold main at h
    cases pc <;> simp only [Loc.isParent, Bool.false_eq_true] at hp <;>
      simp only [Proc.exit, Proc.goto, Proc.act] at h <;>
      (try split at h) <;> (try split at h) <;>
      simp only [Option.some.injEq, reduceCtorEq] at h <;>
      subst h <;>
      simp only [kidOk, Loc.beforeRecord, Loc.afterRecord, Loc.inBody, Bool.false_eq_true,
        false_and, and_false, or_false, false_or, true_and, ne_eq, not_true_eq_false,
        reduceCtorEq, not_false_eq_true, forall_const] at hk hlen hargc hidx hnr ⊢
    all_goals first
      | exact hk
      | (left; exact ⟨by omega, hk.2⟩)
      | skip
    · rcases hk with ⟨h1, h2⟩ | ⟨h1, h2⟩
      · left
        refine ⟨h1, ?_⟩
        rw [List.getElem?_set_ne (by omega)]
        exact h2
      · right
        refine ⟨h1, ?_⟩
        have hs : i - 1 = k.slot := by omega
        have hl : k.slot < pids.length := by
          rw [hlen]; simp only [MAX_FILES] at hargc ⊢; omega
        rw [List.getElem?_set, hs, if_pos rfl, if_pos hl, h2]
    · rcases hk with ⟨h1, h2⟩ | ⟨h1, h2⟩
      · exact ⟨by omega, h2⟩
      · exact ⟨by omega, h2⟩

theorem kidOk_sigchld (p : Proc) (k : Kid) (pid : Nat) (st : WaitStatus)
    (counts : Option (List Int)) (openOk : Bool) (hk : kidOk p k) :
    kidOk (sigchld p pid st counts openOk) k := by
  obtain ⟨g1, g2, g3, g4, _⟩ := sigchld_fields p pid st counts openOk
  simpa only [kidOk, g1, g2, g3, g4] using hk

theorem step_RecInv (argv : List String) (s t : Sys) (e : Ev) (hJ : RecInv argv s)
    (h : step argv s e = some t) : RecInv argv t := by
  obtain ⟨hpar, hlen, hargc, hearly, hidx, hidx0, hkids⟩ := hJ
  cases e with
  | run r =>
    simp only [step] at h
    cases hq : exec argv s.ctl r with
    | none => simp [hq] at h
    | some q =>
      obtain ⟨_, f2, _⟩ := exec_count argv s.ctl q r hq hpar
      obtain ⟨a1, a2, a3, a4, a5, a6⟩ := exec_aux argv s.ctl q r hq hpar hlen hargc hidx hidx0
      have hold : ∀ k ∈ s.kids, kidOk q k := by
        intro k hk
        have hnr : s.ctl.pc ≠ .register := by
          intro hc
          rw [hearly (Or.inr hc)] at hk
          simp at hk
        exact exec_kidOk argv s.ctl q r k hq hpar hnr hlen hargc hidx (hkids k hk)
      have hearly' : q.pc = .start ∨ q.pc = .register → s.kids = [] :=
        fun hc => hearly (Or.inl (a5 hc))
      simp only [hq] at h
      by_cases hpc : s.ctl.pc = .doFork
      · simp only [hpc, if_true] at h
        cases r with
        | pid n =>
          cases n with
          | zero => simp at h
          | succ n =>
            simp only at h
            split at h
            · simp at h
            · simp only [Option.some.injEq] at h
              subst h
              have hpar' : q.pc.isParent = true := by
                rcases f2 with h1 | ⟨_, h1⟩
                · exact h1
                · simp at h1
              obtain ⟨b1, b2, b3⟩ := a6 hpc rfl
              have hi := hidx (by rw [hpc]; rfl)
              refine ⟨hpar', a1, a2, ?_, a3, a4, ?_⟩
              · intro hc; rw [b1] at hc; simp at hc
              · intro k hk
                rcases List.mem_append.mp hk with hk | hk
                · exact hold k hk
                · simp only [List.mem_singleton] at hk
                  subst hk
                  right; left
                  simp only [Ret.pid.injEq] at b3
                  refine ⟨by simp only [b2]; omega, by rw [b1]; rfl, b3⟩
        | unit | ok | fail | bytes _ | killed =>
          simp only [Option.some.injEq] at h
          subst h
          have hpar' : q.pc.isParent = true := by
            rcases f2 with h1 | ⟨_, h1⟩
            · exact h1
            · simp at h1
          exact ⟨hpar', a1, a2, hearly', a3, a4, hold⟩
      · simp only [hpc, if_false, Option.some.injEq] at h
        subst h
        have hpar' : q.pc.isParent = true := by
          rcases f2 with h1 | ⟨h1, _⟩
          · exact h1
          · exact absurd h1 hpc
        exact ⟨hpar', a1, a2, hearly', a3, a4, hold⟩
  | die pid st =>
    simp only [step] at h
    split at h
    · simp only [Option.some.injEq] at h
      subst h
      refine ⟨hpar, hlen, hargc, ?_, hidx, hidx0, ?_⟩
      · intro hc; simp [hearly hc]
      · intro k hk
        simp only [List.mem_map] at hk
        obtain ⟨k0, hk0, rfl⟩ := hk
        have := hkids k0 hk0
        split <;> simpa [kidOk] using this
    · simp at h
  | reap pid counts openOk =>
    simp only [step] at h
    split at h
    · simp at h
    · split at h
      · rename_i k hk
        split at h
        · rename_i st hst
          simp only [Option.some.injEq] at h
          subst h
          obtain ⟨g1, g2, _, g4, _⟩ := sigchld_fields s.ctl pid st counts openOk
          refine ⟨by simpa [g1] using hpar, by simpa [g4] using hlen, by simpa [g1] using hargc,
            ?_, by simpa [g1, g2] using hidx, by simpa [g1, g2] using hidx0, ?_⟩
          · intro hc
            simp only [g1] at hc
            simp [hearly hc]
          · intro k0 hk0
            exact kidOk_sigchld s.ctl k0 pid st counts openOk
              (hkids k0 (List.mem_of_mem_erase hk0))
        · simp at h
      · simp at h
  | rearm ok =>
    simp only [step] at h
    split at h
    · simp at h
    · split at h
      · simp only [Option.some.injEq] at h
        subst h
        exact ⟨hpar, hlen, hargc, hearly, hidx, hidx0, hkids⟩
      · simp only [Option.some.injEq] at h
        subst h
        exact ⟨hpar, hlen, hargc, hearly, hidx, hidx0, hkids⟩

theorem run_RecInv (argv : List String) : ∀ (evs : List Ev) (s t : Sys), RecInv argv s →
    run argv s evs = some t → RecInv argv t := by
  intro evs
  induction evs with
  | nil => intro s t hs h; simp only [run, Option.some.injEq] at h; rw [← h]; exact hs
  | cons e es ih =>
    intro s t hs h
    simp only [run] at h
    cases hst : step argv s e with
    | none => simp [hst] at h
    | some u =>
      simp only [hst] at h
      exact ih u t (step_RecInv argv s u e hs hst) h

theorem RecInv_init (argv : List String) : RecInv argv Sys.init := by
  refine ⟨rfl, by simp [Sys.init, Proc.init], by simp [Sys.init, Proc.init], fun _ => rfl,
    by simp [Sys.init, Proc.init, Loc.inBody], by simp [Sys.init, Proc.init], ?_⟩
  intro k hk
  simp [Sys.init] at hk

theorem find?_range_le (f : Nat → Bool) : ∀ (n m : Nat), m < n → f m = true →
    ∃ j, j ≤ m ∧ (List.range n).find? f = some j ∧ f j = true := by
  intro n
  induction n with
  | zero => intro m hm _; omega
  | succ n ih =>
    intro m hm hf
    rw [List.range_succ, List.find?_append]
    cases hfind : (List.range n).find? f with
    | some j =>
      have hj : j < n := List.mem_range.mp (List.mem_of_find?_eq_some hfind)
      have hfj : f j = true := List.find?_some hfind
      by_cases hmn : m < n
      · obtain ⟨j2, h1, h2, h3⟩ := ih m hmn hf
        rw [hfind] at h2
        simp only [Option.some.injEq] at h2
        subst h2
        exact ⟨j, h1, by simp, h3⟩
      · exact ⟨j, by omega, by simp, hfj⟩
    | none =>
      by_cases hmn : m < n
      · obtain ⟨j2, _, h2, _⟩ := ih m hmn hf
        rw [hfind] at h2
        simp at h2
      · have : m = n := by omega
        subst this
        exact ⟨m, le_rfl, by simp [hf], hf⟩

theorem findPipe_recorded (pids : List Nat) (pid slot : Nat) (hrec : pids[slot]? = some pid)
    (hslot : slot < MAX_FILES) :
    (∃ j, j ≤ slot ∧ findPipe pids pid = some j) ∧
    ((∀ j, j < slot → pids[j]? ≠ some pid) → findPipe pids pid = some slot) := by
  have hf : (fun i => pid == pids.getD i 0) slot = true := by
    simp [List.getD_eq_getElem?_getD, hrec]
  obtain ⟨j, h1, h2, h3⟩ := find?_range_le (fun i => pid == pids.getD i 0) MAX_FILES slot hslot hf
  refine ⟨⟨j, h1, h2⟩, ?_⟩
  intro hno
  by_cases hj : j < slot
  · exfalso
    apply hno j hj
    have hlt : slot < pids.length := by
      by_contra hc
      rw [List.getElem?_eq_none (by omega)] at hrec
      simp at hrec
    simp only [beq_iff_eq] at h3
    rw [List.getD_eq_getElem?_getD, List.getElem?_eq_getElem (by omega)] at h3
    simp only [Option.getD_some] at h3
    rw [List.getElem?_eq_getElem (by omega), ← h3]
  · have : j = slot := by omega
    rw [← this]; exact h2

theorem exec_zero (argv : List String) (p q : Proc) (r : Ret) (h : exec argv p r = some q)
    (hp : p.pc.isParent = true)
    (hidx : p.pc.inBody = true → 1 ≤ p.i ∧ p.i < argv.length)
    (hz : ∀ j, p.zeroFrom ≤ j → p.pids.getD j 0 = 0) :
    ∀ j, q.zeroFrom ≤ j → q.pids.getD j 0 = 0 := by
  obtain ⟨pc, i, pid, fd, pids, nc, nt, hd, log, ended⟩ := p
  cases ended with
  | some e => simp [exec] at h
  | none =>
    unfold exec at h
    simp only [Option.isSome_none, Bool.false_eq_true, if_false] at h
    unfold main at h
    cases pc <;> simp only [Loc.isParent, Bool.false_eq_true] at hp <;>
      simp only [Proc.exit, Proc.goto, Proc.act] at h <;>
      (try split at h) <;> (try split at h) <;>
      simp only [Option.some.injEq, reduceCtorEq] at h <;>
      subst h <;>
      simp only [Proc.zeroFrom, Loc.inBody, Bool.false_eq_true, false_implies,
        forall_const] at hz hidx ⊢
    all_goals first
      | exact hz
      | skip
    intro j hj
    rw [List.getD_eq_getElem?_getD, List.getElem?_set_ne (by omega),
      ← List.getD_eq_getElem?_getD]
    exact hz j (by omega)

theorem zeroFrom_sigchld (p : Proc) (pid : Nat) (st : WaitStatus) (counts : Option (List Int))
    (openOk : Bool) :
    (sigchld p pid st counts openOk).zeroFrom = p.zeroFrom ∧
    (sigchld p pid st counts openOk).pids = p.pids := by
  obtain ⟨g1, g2, _, g4, _⟩ := sigchld_fields p pid st counts openOk
  exact ⟨by simp only [Proc.zeroFrom, g1, g2], g4⟩

theorem step_ZeroInv (argv : List String) (s t : Sys) (e : Ev) (hR : RecInv argv s)
    (hZ : ZeroInv s) (h : step argv s e = some t) : ZeroInv t := by
  obtain ⟨hkp, hz⟩ := hZ
  cases e with
  | run r =>
    simp only [step] at h
    cases hq : exec argv s.ctl r with
    | none => simp [hq] at h
    | some q =>
      have hz' := exec_zero argv s.ctl q r hq hR.parent hR.idx hz
      simp only [hq] at h
      by_cases hpc : s.ctl.pc = .doFork
      · simp only [hpc, if_true] at h
        cases r with
        | pid n =>
          cases n with
          | zero => simp at h
          | succ n =>
            simp only at h
            split at h
            · simp at h
            · simp only [Option.some.injEq] at h
              subst h
              refine ⟨?_, hz'⟩
              intro k hk
              rcases List.mem_append.mp hk with hk | hk
              · exact hkp k hk
              · simp only [List.mem_singleton] at hk
                subst hk
                simp
        | unit | ok | fail | bytes _ | killed =>
          simp only [Option.some.injEq] at h
          subst h
          exact ⟨hkp, hz'⟩
      · simp only [hpc, if_false, Option.some.injEq] at h
        subst h
        exact ⟨hkp, hz'⟩
  | die pid st =>
    simp only [step] at h
    split at h
    · simp only [Option.some.injEq] at h
      subst h
      refine ⟨?_, hz⟩
      intro k hk
      simp only [List.mem_map] at hk
      obtain ⟨k0, hk0, rfl⟩ := hk
      have := hkp k0 hk0
      split <;> simpa using this
    · simp at h
  | reap pid counts openOk =>
    simp only [step] at h
    split at h
    · simp at h
    · split at h
      · rename_i k hk
        split at h
        · rename_i st hst
          simp only [Option.some.injEq] at h
          subst h
          obtain ⟨z1, z2⟩ := zeroFrom_sigchld s.ctl pid st counts openOk
          refine ⟨fun k0 hk0 => hkp k0 (List.mem_of_mem_erase hk0), ?_⟩
          simp only [z1, z2]
          exact hz
        · simp at h
      · simp at h
  | rearm ok =>
    simp only [step] at h
    split at h
    · simp at h
    · split at h
      · simp only [Option.some.injEq] at h
        subst h
        exact ⟨hkp, hz⟩
      · simp only [Option.some.injEq] at h
        subst h
        exact ⟨hkp, hz⟩

theorem run_ZeroInv (argv : List String) : ∀ (evs : List Ev) (s t : Sys), RecInv argv s →
    ZeroInv s → run argv s evs = some t → ZeroInv t := by
  intro evs
  induction evs with
  | nil => intro s t _ hs h; simp only [run, Option.some.injEq] at h; rw [← h]; exact hs
  | cons e es ih =>
    intro s t hR hs h
    simp only [run] at h
    cases hst : step argv s e with
    | none => simp [hst] at h
    | some u =>
      simp only [hst] at h
      exact ih u t (step_RecInv argv s u e hR hst) (step_ZeroInv argv s u e hR hs hst) h

theorem ZeroInv_init : ZeroInv Sys.init := by
  refine ⟨by simp [Sys.init], ?_⟩
  intro j _
  simp only [Sys.init, Proc.init, List.getD_eq_getElem?_getD, List.getElem?_replicate]
  split <;> rfl

theorem findPipe_own (argv : List String) (evs : List Ev) (s : Sys) (k : Kid)
    (h : run argv Sys.init evs = some s) (hk : k ∈ s.kids)
    (hlow : ∀ j, j < k.slot → s.ctl.pids[j]? ≠ some k.pid) :
    ∀ j, findPipe s.ctl.pids k.pid = some j → j = k.slot := by
  have hR := run_RecInv argv evs Sys.init s (RecInv_init argv) h
  have hZ := run_ZeroInv argv evs Sys.init s (RecInv_init argv) ZeroInv_init h
  have hlen := hR.len
  intro j hj
  have hrec : ∀ (hr : s.ctl.pids[k.slot]? = some k.pid), j = k.slot := by
    intro hr
    have hslot : k.slot < MAX_FILES := by
      by_contra hc
      rw [List.getElem?_eq_none (by omega)] at hr
      simp at hr
    have := (findPipe_recorded s.ctl.pids k.pid k.slot hr hslot).2 hlow
    rw [this] at hj
    simpa using hj.symm
  rcases hR.kids k hk with ⟨_, h2⟩ | ⟨h1, h2, _⟩ | ⟨_, _, h3⟩
  · exact hrec h2
  · have hjlt : j < MAX_FILES := List.mem_range.mp (List.mem_of_find?_eq_some hj)
    have hval : k.pid = s.ctl.pids.getD j 0 := by
      have := List.find?_some hj
      simpa using this
    by_contra hne
    by_cases hlt : j < k.slot
    · apply hlow j hlt
      rw [List.getD_eq_getElem?_getD, List.getElem?_eq_getElem (by omega)] at hval
      simp only [Option.getD_some] at hval
      rw [List.getElem?_eq_getElem (by omega), hval]
    · have hzf : s.ctl.zeroFrom = s.ctl.i - 1 := by
        unfold Proc.zeroFrom
        cases hpc : s.ctl.pc <;> simp [hpc, Loc.beforeRecord] at h2 ⊢
      have hz0 := hZ.zero j (by rw [hzf]; omega)
      rw [hz0] at hval
      exact hZ.kidpid k hk hval
  · exact hrec h3

theorem sigchld_reads_lookup (p : Proc) (pid : Nat) (st : WaitStatus)
    (counts : Option (List Int)) (openOk : Bool) (slot : Nat) (got : Bool)
    (h : Act.readPipe slot got ∈ newActs p (sigchld p pid st counts openOk)) :
    findPipe p.pids pid = some slot := by
  cases st with
  | signaled sig => simp [sigchld, newActs, Proc.act] at h
  | exited code =>
    simp only [sigchld, newActs] at h
    cases hf : findPipe p.pids pid with
    | none => simp [hf, Proc.act] at h
    | some cur =>
      simp only [hf] at h
      cases counts with
      | none =>
        simp [Proc.act] at h
        rw [h.1]
      | some c =>
        cases openOk <;> simp [Proc.act, Proc.exit] at h <;> rw [h.1]

/-! ## Claims on `Histogram` and on the artifact -/

/-- C1: for a buffer `Data` and a length `Size` not larger than the buffer (and, being an
`int`, not above 2^31 - 1), entry `k` of `Histogram(Data, Size)`, `k` in 0..25, is the number
of positions `i < Size` where `Data[i]` is the lowercase letter `'a' + k` or the uppercase
letter `'A' + k`; a byte that is not an ASCII letter leaves the array unchanged. -/
theorem Histogram_counts_letters (Data : List Nat) (Size : Int) (k : Nat)
    (hlen : Size ≤ Data.length) (hint : Size ≤ 2147483647) (hk : k < 26) :
    (∃ h, Histogram true Data Size = .ok h ∧
      h[k]? = some (((List.range Size.toNat).countP
        (fun i => decide (Data[i]? = some (97 + k) ∨ Data[i]? = some (65 + k))) : Nat) : Int)) ∧
    (∀ (h : List Int) (c : Nat), ¬ (65 ≤ c ∧ c ≤ 90 ∨ 97 ≤ c ∧ c ≤ 122) → histStep h c = h) := by
  constructor
  · obtain ⟨h, h1, h2, h3, _⟩ := Histogram_take_spec Data Size hlen hint
    refine ⟨h, h1, ?_⟩
    rw [getElem?_of_getD h k (by omega), h3 k hk, ← countP_range_take]
    congr 3
    funext i
    cases hd : Data[i]? <;> simp [isLetterK]
    rfl
  · intro h c hc
    apply histStep_not_alpha
    simp only [isalpha, Bool.or_eq_false_iff, Bool.and_eq_false_iff, decide_eq_false_iff_not]
    omega

theorem Histogram_counts_letters_witness :
    ((11 : Int) ≤ helloWorld.length ∧ (11 : Int) ≤ 2147483647 ∧ 11 < 26) ∧
    ((∃ h, Histogram true helloWorld 11 = .ok h ∧
      h[11]? = some (((List.range (11 : Int).toNat).countP
        (fun i => decide (helloWorld[i]? = some (97 + 11) ∨ helloWorld[i]? = some (65 + 11))) :
          Nat) : Int)) ∧
    (∀ (h : List Int) (c : Nat), ¬ (65 ≤ c ∧ c ≤ 90 ∨ 97 ≤ c ∧ c ≤ 122) → histStep h c = h)) :=
  ⟨by decide, Histogram_counts_letters helloWorld 11 11 (by decide) (by decide) (by decide)⟩

/-- C2: the 26 entries of `Histogram(buffer)` add up to the number of alphabetic bytes of the
buffer, and the uppercase and the lowercase form of a letter are counted in the same entry. -/
theorem Histogram_sum_alphabetic (Data : List Nat) (hint : (Data.length : Int) ≤ 2147483647) :
    (∃ h, Histogram true Data Data.length = .ok h ∧ h.length = 26 ∧
      h.sum = ((Data.countP (fun c => decide (65 ≤ c ∧ c ≤ 90 ∨ 97 ≤ c ∧ c ≤ 122)) : Nat) : Int)) ∧
    (∀ (h : List Int) (k : Nat), k < 26 → histStep h (65 + k) = histStep h (97 + k)) := by
  constructor
  · obtain ⟨h, h1, h2, _, h4⟩ := Histogram_take_spec Data Data.length le_rfl hint
    refine ⟨h, h1, h2, ?_⟩
    rw [h4]
    simp only [Int.toNat_ofNat, List.take_length]
    congr 2
    funext c
    simp [isalpha]
  · intro h k hk
    have h1 : isalpha (65 + k) = true := by simp [isalpha]; omega
    have h2 : isalpha (97 + k) = true := by simp [isalpha]; omega
    have h3 : tolower (65 + k) = 97 + k := by unfold tolower; split <;> omega
    have h4 : tolower (97 + k) = 97 + k := by unfold tolower; split <;> omega
    simp [histStep, h1, h2, h3, h4]

theorem Histogram_sum_alphabetic_witness :
    ((helloWorld.length : Int) ≤ 2147483647) ∧
    ((∃ h, Histogram true helloWorld helloWorld.length = .ok h ∧ h.length = 26 ∧
      h.sum = ((helloWorld.countP (fun c => decide (65 ≤ c ∧ c ≤ 90 ∨ 97 ≤ c ∧ c ≤ 122)) : Nat) :
        Int)) ∧
    (∀ (h : List Int) (k : Nat), k < 26 → histStep h (65 + k) = histStep h (97 + k))) :=
  ⟨by decide, Histogram_sum_alphabetic helloWorld (by decide)⟩

/-- C8: for a buffer and a length `Size` that fits a 32-bit signed `int` (at most 2^31 - 1;
negative values included) and does not exceed the buffer, `Histogram` returns an array of
exactly 26 entries, none negative: no entry wraps around. -/
theorem Histogram_length_nonneg (Data : List Nat) (Size : Int)
    (hmax : Size ≤ 2147483647) (hlen : Size ≤ Data.length) :
    ∃ h, Histogram true Data Size = .ok h ∧ h.length = 26 ∧ ∀ x ∈ h, 0 ≤ x := by
  obtain ⟨h, h1, h2, h3, _⟩ := Histogram_take_spec Data Size hlen hmax
  refine ⟨h, h1, h2, ?_⟩
  intro x hx
  obtain ⟨k, hk, rfl⟩ := List.getElem_of_mem hx
  have := h3 k (by omega)
  rw [List.getD_eq_getElem?_getD, List.getElem?_eq_getElem hk] at this
  simp only [Option.getD_some] at this
  rw [this]
  omega

theorem Histogram_length_nonneg_witness :
    ((11 : Int) ≤ 2147483647 ∧ (11 : Int) ≤ helloWorld.length) ∧
    ∃ h, Histogram true helloWorld 11 = .ok h ∧ h.length = 26 ∧ ∀ x ∈ h, 0 ≤ x :=
  ⟨by decide, Histogram_length_nonneg helloWorld 11 (by decide) (by decide)⟩

/-- C5: the artifact rendered from the payload `Histogram(buffer)` has exactly 26 lines;
line `k` is the letter `'a' + k`, the character `=`, the decimal digits of the non-negative
count held in entry `k`, and a newline, in the order `a` to `z`; the reaper writes this
text for the worker whose payload it received. For the buffer "Hello World" the lines are
h=1, e=1, l=3, o=2, w=1, r=1, d=1 and =0 for every other letter. -/
theorem artifact_lines (Data : List Nat) (hint : (Data.length : Int) ≤ 2147483647) :
    (∃ h, Histogram true Data Data.length = .ok h ∧
      (artifactLines h).length = 26 ∧
      (∀ k, k < 26 → ∃ n : Nat, h[k]? = some (n : Int) ∧
        (artifactLines h)[k]? =
          some ([Char.ofNat (97 + k), Char.ofNat 61] ++ Nat.toDigits 10 n ++ [Char.ofNat 10])) ∧
      renderArtifact h = (artifactLines h).flatten ∧
      (∀ (p : Proc) (pid code slot : Nat), findPipe p.pids pid = some slot →
        (sigchld p pid (.exited code) (some h) true).log =
          p.log ++ [.readPipe slot true, .artifact pid (renderArtifact h), .closeRead slot])) ∧
    (Histogram true helloWorld helloWorld.length).map renderArtifact =
      .ok ("a=0\nb=0\nc=0\nd=1\ne=1\nf=0\ng=0\nh=1\ni=0\nj=0\nk=0\nl=3\nm=0\n" ++
        "n=0\no=2\np=0\nq=0\nr=1\ns=0\nt=0\nu=0\nv=0\nw=1\nx=0\ny=0\nz=0\n").toList := by
  constructor
  · obtain ⟨h, h1, h2, h3, _⟩ := Histogram_take_spec Data Data.length le_rfl hint
    refine ⟨h, h1, writeLines_length h 26 97, ?_, rfl, ?_⟩
    · intro k hk
      refine ⟨(Data.take (Data.length : Int).toNat).countP (isLetterK k), ?_, ?_⟩
      · rw [getElem?_of_getD h k (by omega), h3 k hk]
      · unfold artifactLines
        rw [writeLines_getElem? h 26 97 k hk]
        have : 97 + k - 97 = k := by omega
        rw [this, h3 k hk]
        simp [sprintfLine, fmtD_natCast]
    · intro p pid code slot hs
      simp [sigchld, hs, Proc.act]
  · rfl

theorem artifact_lines_witness :
    ((helloWorld.length : Int) ≤ 2147483647) ∧
    ((∃ h, Histogram true helloWorld helloWorld.length = .ok h ∧
      (artifactLines h).length = 26 ∧
      (∀ k, k < 26 → ∃ n : Nat, h[k]? = some (n : Int) ∧
        (artifactLines h)[k]? =
          some ([Char.ofNat (97 + k), Char.ofNat 61] ++ Nat.toDigits 10 n ++ [Char.ofNat 10])) ∧
      renderArtifact h = (artifactLines h).flatten ∧
      (∀ (p : Proc) (pid code slot : Nat), findPipe p.pids pid = some slot →
        (sigchld p pid (.exited code) (some h) true).log =
          p.log ++ [.readPipe slot true, .artifact pid (renderArtifact h), .closeRead slot])) ∧
    (Histogram true helloWorld helloWorld.length).map renderArtifact =
      .ok ("a=0\nb=0\nc=0\nd=1\ne=1\nf=0\ng=0\nh=1\ni=0\nj=0\nk=0\nl=3\nm=0\n" ++
        "n=0\no=2\np=0\nq=0\nr=1\ns=0\nt=0\nu=0\nv=0\nw=1\nx=0\ny=0\nz=0\n").toList) :=
  ⟨by decide, artifact_lines helloWorld (by decide)⟩

/-! ## Claims on the argument check, the reaper and the marker worker -/

theorem step_rejected (argv : List String) (hrej : argv.length = 1 ∨ MAX_FILES + 1 < argv.length)
    (s t : Sys) (e : Ev)
    (hs : s = Sys.init ∨ s = { ctl := Proc.init.exit EXIT_FAILURE, kids := [] })
    (h : step argv s e = some t) :
    t = Sys.init ∨ t = { ctl := Proc.init.exit EXIT_FAILURE, kids := [] } := by
  rcases hs with rfl | rfl
  · cases e with
    | run r =>
      right
      unfold step exec main at h
      rcases hrej with h1 | h1
      · simp [Sys.init, Proc.init, h1] at h
        rw [← h]; rfl
      · have h2 : argv.length > MAX_FILES + 1 := h1
        simp [Sys.init, Proc.init, h2] at h
        rw [← h]; rfl
    | die pid st => simp [step, Sys.init] at h
    | reap pid counts openOk => simp [step, Sys.init, Proc.init] at h
    | rearm ok => simp [step, Sys.init, Proc.init] at h
  · cases e with
    | run r => simp [step, exec, Proc.exit] at h
    | die pid st => simp [step] at h
    | reap pid counts openOk => simp [step, Proc.exit] at h
    | rearm ok => simp [step, Proc.exit] at h

theorem run_rejected (argv : List String) (hrej : argv.length = 1 ∨ MAX_FILES + 1 < argv.length) :
    ∀ (evs : List Ev) (s t : Sys),
      (s = Sys.init ∨ s = { ctl := Proc.init.exit EXIT_FAILURE, kids := [] }) →
      run argv s evs = some t →
      t = Sys.init ∨ t = { ctl := Proc.init.exit EXIT_FAILURE, kids := [] } := by
  intro evs
  induction evs with
  | nil => intro s t hs h; simp only [run, Option.some.injEq] at h; rw [← h]; exact hs
  | cons e es ih =>
    intro s t hs h
    simp only [run] at h
    cases hst : step argv s e with
    | none => simp [hst] at h
    | some u =>
      simp only [hst] at h
      exact ih u t (step_rejected argv hrej s u e hs hst) h

/-- C3: with `n` file/marker arguments (`argc = n + 1`) the argument check ends the
controller with a non-zero exit status exactly when `n = 0` or `n > 100`, and lets it
proceed for every `n` from 1 to 100; after a rejection no state the controller can reach
has a pipe, a child, or a counter different from 0. -/
theorem argument_check (argv : List String) (n : Nat) (hn : argv.length = n + 1) :
    (∃ s, step argv Sys.init (.run .unit) = some s ∧
      ((∃ code, code ≠ 0 ∧ s.ctl.ended = some (.exited code)) ↔ (n = 0 ∨ MAX_FILES < n)) ∧
      ((1 ≤ n ∧ n ≤ MAX_FILES) → s.ctl.ended = none ∧ s.ctl.pc = .register)) ∧
    ((n = 0 ∨ MAX_FILES < n) → ∀ (evs : List Ev) (s : Sys), run argv Sys.init evs = some s →
      s.kids = [] ∧ s.ctl.log = [] ∧ s.ctl.numChildren = 0 ∧ s.ctl.numTerminated = 0) := by
  constructor
  · unfold step exec main
    by_cases h1 : n = 0
    · simp [Sys.init, Proc.init, Proc.exit, hn, h1, EXIT_FAILURE, MAX_FILES]
    · by_cases h2 : MAX_FILES < n
      · have h3 : n + 1 > MAX_FILES + 1 := by omega
        simp [Sys.init, Proc.init, Proc.exit, hn, h1, h2, h3, EXIT_FAILURE]
      · have h3 : ¬ (n + 1 > MAX_FILES + 1) := by omega
        simp [Sys.init, Proc.init, Proc.goto, hn, h1, h2, h3]
  · intro hrej evs s h
    have hrej2 : argv.length = 1 ∨ MAX_FILES + 1 < argv.length := by omega
    rcases run_rejected argv hrej2 evs Sys.init s (Or.inl rfl) h with rfl | rfl <;>
      simp [Sys.init, Proc.init, Proc.exit]

theorem argument_check_witness :
    (["parallel"].length = 0 + 1) ∧
    ((∃ s, step ["parallel"] Sys.init (.run .unit) = some s ∧
      ((∃ code, code ≠ 0 ∧ s.ctl.ended = some (.exited code)) ↔ (0 = 0 ∨ MAX_FILES < 0)) ∧
      ((1 ≤ 0 ∧ 0 ≤ MAX_FILES) → s.ctl.ended = none ∧ s.ctl.pc = .register)) ∧
    ((0 = 0 ∨ MAX_FILES < 0) → ∀ (evs : List Ev) (s : Sys),
      run ["parallel"] Sys.init evs = some s →
      s.kids = [] ∧ s.ctl.log = [] ∧ s.ctl.numChildren = 0 ∧ s.ctl.numTerminated = 0)) :=
  ⟨by decide, argument_check ["parallel"] 0 (by decide)⟩

/-- C4, as stated, fails. First run: the worker with pid 7 exits normally, the reaper
receives its payload (`readPipe 0 true`), the artifact file cannot be opened, and the
controller exits with status 1 (line 65): a payload was received and no artifact was
created. Second run: the first worker (pid 7, index 0) is killed by a signal, so its pipe is
left open and unread; the kernel gives the second worker the pid 7 again; that worker fails
to open its file and exits with status 1; the lookup returns index 0, the reaper reads the
first worker's pipe and creates an artifact for a worker that sent nothing. -/
theorem payload_without_artifact :
    (run ["parallel", "a.txt"] Sys.init
      [.run .unit, .run .unit, .run .unit, .run .ok, .run (.pid 7), .run .unit, .run .unit,
        .run .unit, .die 7 (.exited 0),
        .reap 7 (some [0,0,0,1,1,0,0,1,0,0,0,3,0,0,2,0,0,1,0,0,0,0,1,0,0,0]) false]).map
      (fun s => (s.ctl.log, s.ctl.numTerminated, s.ctl.ended)) =
    some ([.pipe 0, .fork 7, .closeWrite 0, .readPipe 0 true], 1, some (.exited 1)) ∧
    (run ["parallel", "a.txt", "missing.txt"] Sys.init
      [.run .unit, .run .unit, .run .unit, .run .ok, .run (.pid 7), .run .unit, .run .unit,
        .run .unit, .run .unit, .run .unit, .die 7 (.signaled 9), .reap 7 none true,
        .run .unit, .run .ok, .run (.pid 7), .run .unit, .run .unit, .die 7 (.exited 1),
        .reap 7 (some [0,0,0,1,1,0,0,1,0,0,0,3,0,0,2,0,0,1,0,0,0,0,1,0,0,0]) true]).map
      (fun s => (s.ctl.pids.take 2, s.ctl.log)) =
    some ([7, 7], [.pipe 0, .fork 7, .closeWrite 0, .abnormal 7, .pipe 1, .fork 7,
      .closeWrite 1, .readPipe 0 true,
      .artifact 7 (renderArtifact [0,0,0,1,1,0,0,1,0,0,0,3,0,0,2,0,0,1,0,0,0,0,1,0,0,0]),
      .closeRead 0]) := by
  decide

/-- C4, amended. Every reap increments `numTerminated` by exactly one. The reaper reads only
the pipe its lookup returned, the flag logged with the read tells whether `read` delivered a
payload, and an artifact is created if and only if a payload was received from that pipe and
the artifact file could be opened; when it cannot be opened the controller exits with
`EXIT_FAILURE`. A worker terminated by a signal is counted, its pipe is not read, it gets no
artifact and the controller keeps running. For a worker `k` forked and not yet reaped in a
reachable state, provided no lower index of `pids` holds the same pid, the pipe read is the
worker's own and the artifact is created if and only if a payload was received from its own
channel and the file could be opened. A worker that exited with status 1 and whose read
delivers nothing is counted, gets no artifact and leaves the controller running. The last
two parts evaluate the worker that fails to open its file (it writes nothing and closes its
write end) and the whole run, which ends with exit status 0. -/
theorem reap_counts_and_artifact (argv : List String) (evs : List Ev) (s : Sys) (k : Kid)
    (h : run argv Sys.init evs = some s) (hk : k ∈ s.kids) :
    (∀ (p : Proc) (pid : Nat) (st : WaitStatus) (counts : Option (List Int)) (openOk : Bool),
      (sigchld p pid st counts openOk).numTerminated = p.numTerminated + 1 ∧
      (∀ slot got, Act.readPipe slot got ∈ newActs p (sigchld p pid st counts openOk) →
        findPipe p.pids pid = some slot ∧ got = counts.isSome) ∧
      ((∃ text, Act.artifact pid text ∈ newActs p (sigchld p pid st counts openOk)) ↔
        ((∃ slot, Act.readPipe slot true ∈ newActs p (sigchld p pid st counts openOk)) ∧
          openOk = true)) ∧
      ((∃ slot, Act.readPipe slot true ∈ newActs p (sigchld p pid st counts openOk)) →
        openOk = false →
        (sigchld p pid st counts openOk).ended = some (.exited EXIT_FAILURE)) ∧
      (∀ sig,
        (sigchld p pid (.signaled sig) counts openOk).numTerminated = p.numTerminated + 1 ∧
        (∀ slot got,
          Act.readPipe slot got ∉ newActs p (sigchld p pid (.signaled sig) counts openOk)) ∧
        (∀ text,
          Act.artifact pid text ∉ newActs p (sigchld p pid (.signaled sig) counts openOk)) ∧
        (sigchld p pid (.signaled sig) counts openOk).ended = p.ended)) ∧
    ((∀ j, j < k.slot → s.ctl.pids[j]? ≠ some k.pid) →
      ∀ (st : WaitStatus) (counts : Option (List Int)) (openOk : Bool),
        (∀ slot got,
          Act.readPipe slot got ∈ newActs s.ctl (sigchld s.ctl k.pid st counts openOk) →
          slot = k.slot) ∧
        ((∃ text, Act.artifact k.pid text ∈
            newActs s.ctl (sigchld s.ctl k.pid st counts openOk)) ↔
          (Act.readPipe k.slot true ∈ newActs s.ctl (sigchld s.ctl k.pid st counts openOk) ∧
            openOk = true))) ∧
    (∀ openOk : Bool,
      (sigchld s.ctl k.pid (.exited 1) none openOk).numTerminated = s.ctl.numTerminated + 1 ∧
      (∀ text,
        Act.artifact k.pid text ∉ newActs s.ctl (sigchld s.ctl k.pid (.exited 1) none openOk)) ∧
      (sigchld s.ctl k.pid (.exited 1) none openOk).ended = s.ctl.ended) ∧
    (execs ["parallel", "missing.txt"] Proc.init
      [.unit, .unit, .unit, .ok, .pid 0, .unit, .unit, .fail]).map
      (fun q => (q.log, q.ended)) =
    some ([.pipe 0, .closeRead 0, .openFile (some "missing.txt") false, .closeWrite 0],
      some (.exited 1)) ∧
    (run ["parallel", "missing.txt"] Sys.init
      [.run .unit, .run .unit, .run .unit, .run .ok, .run (.pid 7), .run .unit, .run .unit,
        .run .unit, .run .unit, .run .unit, .run .unit, .die 7 (.exited 1), .reap 7 none true,
        .rearm true, .run .unit, .run .unit]).map
      (fun s => (s.ctl.log, s.ctl.numChildren, s.ctl.numTerminated, s.ctl.ended)) =
    some ([.pipe 0, .fork 7, .closeWrite 0, .readPipe 0 false, .closeRead 0], 1, 1,
      some (.exited 0)) := by
  have general : ∀ (p : Proc) (pid : Nat) (st : WaitStatus) (counts : Option (List Int))
      (openOk : Bool),
      ((∃ text, Act.artifact pid text ∈ newActs p (sigchld p pid st counts openOk)) ↔
        ((∃ slot, Act.readPipe slot true ∈ newActs p (sigchld p pid st counts openOk)) ∧
          openOk = true)) := by
    intro p pid st counts openOk
    cases st <;> simp only [sigchld, newActs] <;> repeat' split
    all_goals simp_all [Proc.act, Proc.exit]
  refine ⟨?_, ?_, ?_, by decide, by decide⟩
  · intro p pid st counts openOk
    refine ⟨?_, ?_, general p pid st counts openOk, ?_, ?_⟩
    · cases st <;> simp only [sigchld] <;> repeat' split
      all_goals simp [Proc.act, Proc.exit]
    · intro slot got hmem
      refine ⟨sigchld_reads_lookup p pid st counts openOk slot got hmem, ?_⟩
      revert hmem
      cases st <;> simp only [sigchld, newActs] <;> repeat' split
      all_goals simp_all [Proc.act, Proc.exit]
    · cases st <;> simp only [sigchld, newActs] <;> repeat' split
      all_goals simp_all [Proc.act, Proc.exit]
    · intro sig
      simp [sigchld, newActs, Proc.act]
  · intro hlow st counts openOk
    have hown : ∀ slot got,
        Act.readPipe slot got ∈ newActs s.ctl (sigchld s.ctl k.pid st counts openOk) →
        slot = k.slot := by
      intro slot got hmem
      exact findPipe_own argv evs s k h hk hlow slot
        (sigchld_reads_lookup s.ctl k.pid st counts openOk slot got hmem)
    refine ⟨hown, ?_⟩
    rw [general s.ctl k.pid st counts openOk]
    constructor
    · rintro ⟨⟨slot, hmem⟩, hopen⟩
      have := hown slot true hmem
      subst this
      exact ⟨hmem, hopen⟩
    · rintro ⟨hmem, hopen⟩
      exact ⟨⟨k.slot, hmem⟩, hopen⟩
  · intro openOk
    refine ⟨?_, ?_, ?_⟩
    · simp only [sigchld]; repeat' split
      all_goals simp [Proc.act, Proc.exit]
    · simp only [sigchld, newActs]; repeat' split
      all_goals simp_all [Proc.act, Proc.exit]
    · simp only [sigchld]; repeat' split
      all_goals simp_all [Proc.act, Proc.exit]

theorem reap_counts_and_artifact_witness :
    (run ["parallel", "missing.txt"] Sys.init
      [.run .unit, .run .unit, .run .unit, .run .ok, .run (.pid 7), .run .unit, .run .unit,
        .run .unit, .run .unit, .run .unit, .run .unit, .die 7 (.exited 1)] =
      some { ctl := { pc := .waiting, i := 2, pid := 7, fileData := [],
                      pids := (List.replicate MAX_FILES 0).set 0 7, numChildren := 1,
                      numTerminated := 0, handler := true,
                      log := [.pipe 0, .fork 7, .closeWrite 0], ended := none },
             kids := [{ pid := 7, slot := 0, status := some (.exited 1) }] } ∧
      ({ pid := 7, slot := 0, status := some (.exited 1) } : Kid) ∈
        [({ pid := 7, slot := 0, status := some (.exited 1) } : Kid)]) ∧
    ((∃ text, Act.artifact 7 text ∈ newActs
        { pc := .waiting, i := 2, pid := 7, fileData := [],
          pids := (List.replicate MAX_FILES 0).set 0 7, numChildren := 1,
          numTerminated := 0, handler := true,
          log := [.pipe 0, .fork 7, .closeWrite 0], ended := none }
        (sigchld
          { pc := .waiting, i := 2, pid := 7, fileData := [],
            pids := (List.replicate MAX_FILES 0).set 0 7, numChildren := 1,
            numTerminated := 0, handler := true,
            log := [.pipe 0, .fork 7, .closeWrite 0], ended := none }
          7 (.exited 1) none true)) ↔
      (Act.readPipe 0 true ∈ newActs
        { pc := .waiting, i := 2, pid := 7, fileData := [],
          pids := (List.replicate MAX_FILES 0).set 0 7, numChildren := 1,
          numTerminated := 0, handler := true,
          log := [.pipe 0, .fork 7, .closeWrite 0], ended := none }
        (sigchld
          { pc := .waiting, i := 2, pid := 7, fileData := [],
            pids := (List.replicate MAX_FILES 0).set 0 7, numChildren := 1,
            numTerminated := 0, handler := true,
            log := [.pipe 0, .fork 7, .closeWrite 0], ended := none }
          7 (.exited 1) none true) ∧ true = true)) :=
  ⟨by decide,
    ((reap_counts_and_artifact ["parallel", "missing.txt"]
      [.run .unit, .run .unit, .run .unit, .run .ok, .run (.pid 7), .run .unit, .run .unit,
        .run .unit, .run .unit, .run .unit, .run .unit, .die 7 (.exited 1)]
      { ctl := { pc := .waiting, i := 2, pid := 7, fileData := [],
                 pids := (List.replicate MAX_FILES 0).set 0 7, numChildren := 1,
                 numTerminated := 0, handler := true,
                 log := [.pipe 0, .fork 7, .closeWrite 0], ended := none },
        kids := [{ pid := 7, slot := 0, status := some (.exited 1) }] }
      { pid := 7, slot := 0, status := some (.exited 1) } (by decide) (by decide)).2.1
        (by intro j hj; simp at hj) (.exited 1) none true).2⟩

/-- C7 fails on the code: the marker branch (lines 193-196) has no `exit`. A worker forked
for the argument "SIG" whose `sleep(10)` runs to its end goes on with the loop of `main`:
for the next argument it creates a pipe and forks a child of its own, and it has not
exited. -/
theorem marker_worker_continues :
    (execs ["parallel", "SIG", "a.txt"] Proc.init
      [.unit, .unit, .unit, .ok, .pid 0, .unit, .unit, .unit, .unit, .unit, .ok, .pid 9]).map
      (fun q => (q.log, q.i, q.pc, q.ended)) =
    some ([.pipe 0, .closeRead 0, .sleep 10, .pipe 1, .fork 9], 2, .parentClose, none) := by
  decide

/-- C9 fails on the code: the branch for a worker terminated by a signal (lines 81-83) does
not close the read end. With the single argument "SIG" the controller runs to its end with
exit status 0 and both counters at 1, and `close(pipes[0][0])` was never called; in general
the handler closes no read end when the child it collected was terminated by a signal. -/
theorem signaled_worker_read_end_left_open :
    (run ["parallel", "SIG"] Sys.init
      [.run .unit, .run .unit, .run .unit, .run .ok, .run (.pid 7), .run .unit, .run .unit,
        .run .unit, .run .unit, .run .unit, .run .unit, .die 7 (.signaled 2), .reap 7 none true,
        .rearm true, .run .unit, .run .unit]).map
      (fun s => (s.ctl.log, s.ctl.numChildren, s.ctl.numTerminated, s.ctl.ended, s.kids)) =
    some ([.pipe 0, .fork 7, .closeWrite 0, .kill 7, .abnormal 7], 1, 1, some (.exited 0), []) ∧
    (∀ (p : Proc) (pid sig slot : Nat) (counts : Option (List Int)) (openOk : Bool),
      Act.closeRead slot ∉ newActs p (sigchld p pid (.signaled sig) counts openOk)) := by
  refine ⟨by decide, ?_⟩
  intro p pid sig slot counts openOk
  simp [sigchld, newActs, Proc.act]

/-- C6, as stated, fails: the only worker exits (its file cannot be opened) and is reaped
after `fork` has returned and before line 201 has incremented `numChildren`; in that state
`numChildren = 0` and `numTerminated = 1`. -/
theorem reaped_exceeds_workers :
    (run ["parallel", "missing.txt"] Sys.init
      [.run .unit, .run .unit, .run .unit, .run .ok, .run (.pid 7), .die 7 (.exited 1),
        .reap 7 none true]).map
      (fun s => (s.ctl.pc, s.ctl.numChildren, s.ctl.numTerminated)) =
    some (.parentClose, 0, 1) := by
  decide

/-- C6, amended: in every reachable state of the controller `numTerminated` is at most
`numChildren + 1`; it is at most `numChildren` in every state outside the statements between
the return of `fork` and the increment of line 201, in particular throughout the waiting
loop; and the controller leaves its waiting loop and ends with exit status 0 only in a state
where `numTerminated = numChildren`. -/
theorem counters_invariant (argv : List String) (evs : List Ev) (s : Sys)
    (h : run argv Sys.init evs = some s) :
    s.ctl.numTerminated ≤ s.ctl.numChildren + 1 ∧
    (s.ctl.pc.inWindow = false → s.ctl.numTerminated ≤ s.ctl.numChildren) ∧
    (s.ctl.pc = .waiting → s.ctl.numTerminated ≤ s.ctl.numChildren) ∧
    (s.ctl.pc = .finish ∨ s.ctl.ended = some (.exited 0) →
      s.ctl.numTerminated = s.ctl.numChildren) := by
  obtain ⟨_, hcount, hfin, hdone⟩ := run_CountInv argv evs Sys.init s CountInv_init h
  refine ⟨?_, ?_, ?_, ?_⟩
  · split at hcount <;> omega
  · intro hw
    simp only [hw, Bool.false_eq_true, if_false] at hcount
    omega
  · intro hw
    simp only [hw, Loc.inWindow, Bool.false_eq_true, if_false] at hcount
    omega
  · rintro (hf | he)
    · exact hfin hf
    · exact hfin (hdone he)

theorem counters_invariant_witness :
    (run ["parallel", "a.txt", "b.txt"] Sys.init
      [.run .unit, .run .unit, .run .unit, .run .ok, .run (.pid 7), .run .unit, .run .unit,
        .run .unit, .run .unit, .run .unit, .run .unit, .run .ok, .run (.pid 8),
        .die 7 (.exited 0), .reap 7 none true] =
      some { ctl := { pc := .parentClose, i := 2, pid := 8, fileData := [],
                      pids := (List.replicate MAX_FILES 0).set 0 7, numChildren := 1,
                      numTerminated := 1, handler := true,
                      log := [.pipe 0, .fork 7, .closeWrite 0, .pipe 1, .fork 8,
                        .readPipe 0 false, .closeRead 0],
                      ended := none },
             kids := [{ pid := 8, slot := 1, status := none }] }) ∧
    ((1 : Nat) ≤ 1 + 1 ∧
    (Loc.parentClose.inWindow = false → (1 : Nat) ≤ 1) ∧
    (Loc.parentClose = .waiting → (1 : Nat) ≤ 1) ∧
    (Loc.parentClose = .finish ∨ (none : Option WaitStatus) = some (.exited 0) →
      (1 : Nat) = 1)) :=
  ⟨by decide, counters_invariant ["parallel", "a.txt", "b.txt"]
    [.run .unit, .run .unit, .run .unit, .run .ok, .run (.pid 7), .run .unit, .run .unit,
      .run .unit, .run .unit, .run .unit, .run .unit, .run .ok, .run (.pid 8),
      .die 7 (.exited 0), .reap 7 none true]
    { ctl := { pc := .parentClose, i := 2, pid := 8, fileData := [],
               pids := (List.replicate MAX_FILES 0).set 0 7, numChildren := 1,
               numTerminated := 1, handler := true,
               log := [.pipe 0, .fork 7, .closeWrite 0, .pipe 1, .fork 8,
                 .readPipe 0 false, .closeRead 0],
               ended := none },
      kids := [{ pid := 8, slot := 1, status := none }] } (by decide)⟩

end Parallel
